import Mathlib

/-!
Shallow embedding of the core of `taro` (job lifecycle engine, progress
tracking, observer dispatch and the Unix-datagram IPC layer) together with
proofs about the properties its specification states.

Conventions of the embedding:
* Python `datetime` values that only flow through the lifecycle ledger are
  modelled as abstract `Nat` timestamps (the code never inspects them there,
  it only stores, compares for presence, and subtracts).
* Fallible Python code (code that can raise) is embedded as `Except PyExc`.
* Byte strings are `List Nat`.
-/

namespace Taro

/-- Exceptions that the embedded fragments can raise. -/
inductive PyExc where
  | valueError
  | typeError
  | zeroDivisionError
  | wouldBlock
  deriving DecidableEq, Repr

instance {ε α : Type} [DecidableEq ε] [DecidableEq α] :
    DecidableEq (Except ε α) := fun a b =>
  match a, b with
  | .ok x, .ok y => decidable_of_iff (x = y) (by simp)
  | .ok _, .error _ => isFalse (fun h => Except.noConfusion h)
  | .error _, .ok _ => isFalse (fun h => Except.noConfusion h)
  | .error x, .error y => decidable_of_iff (x = y) (by simp)

/-! ## `taro/execution.py`: state model -/

/-- Source `ExecutionStateGroup` from `taro/execution.py`. -/
inductive ExecutionStateGroup where
  | BEFORE_EXECUTION
  | EXECUTING
  | TERMINAL
  | NOT_EXECUTED
  | FAILURE
  deriving DecidableEq, Repr

/-- Source `ExecutionState` from `taro/execution.py` (enum members in source order). -/
inductive ExecutionState where
  | NONE
  | CREATED
  | DISABLED
  | PENDING
  | WAITING
  | TRIGGERED
  | STARTED
  | RUNNING
  | COMPLETED
  | STOPPED
  | CANCELLED
  | SKIPPED
  | SUSPENDED
  | START_FAILED
  | INTERRUPTED
  | FAILED
  | ERROR
  deriving DecidableEq, Repr

namespace ExecutionState

open ExecutionStateGroup

/-- The static group-membership table attached to each enum member
(the set literal used as the enum value in the source). -/
def groups : ExecutionState → List ExecutionStateGroup
  | NONE => []
  | CREATED => [BEFORE_EXECUTION]
  | DISABLED => [TERMINAL]
  | PENDING => [BEFORE_EXECUTION]
  | WAITING => [BEFORE_EXECUTION]
  | TRIGGERED => [EXECUTING]
  | STARTED => [EXECUTING]
  | RUNNING => [EXECUTING]
  | COMPLETED => [TERMINAL]
  | STOPPED => [TERMINAL]
  | CANCELLED => [TERMINAL, NOT_EXECUTED]
  | SKIPPED => [TERMINAL, NOT_EXECUTED]
  | SUSPENDED => [TERMINAL, NOT_EXECUTED]
  | START_FAILED => [TERMINAL, FAILURE]
  | INTERRUPTED => [TERMINAL, FAILURE]
  | FAILED => [TERMINAL, FAILURE]
  | ERROR => [TERMINAL, FAILURE]

/-- Source `ExecutionState.is_before_execution`. -/
def is_before_execution (s : ExecutionState) : Bool :=
  s.groups.contains BEFORE_EXECUTION

/-- Source `ExecutionState.is_executing`. -/
def is_executing (s : ExecutionState) : Bool :=
  s.groups.contains EXECUTING

/-- Source `ExecutionState.is_terminal`. -/
def is_terminal (s : ExecutionState) : Bool :=
  s.groups.contains TERMINAL

/-- Source `ExecutionState.is_failure`. -/
def is_failure (s : ExecutionState) : Bool :=
  s.groups.contains FAILURE

end ExecutionState

/-! ## `taro/execution.py`: `ExecutionError` -/

/-- The attributes an `ExecutionError` instance stores after a successful
`__init__` (message, exec_state, optional wrapped unexpected error, and the
free-form keyword params). The wrapped error and the params carry opaque
payloads, modelled as strings / string pairs. -/
structure ExecutionErrorRec where
  message : String
  exec_state : ExecutionState
  unexpected_error : Option String
  params : List (String × String)
  deriving DecidableEq, Repr

/-- Source `ExecutionError.__init__`: raises `ValueError` when `exec_state` is not a
failure state, otherwise stores the fields. -/
def ExecutionError.init (message : String) (exec_state : ExecutionState)
    (unexpected_error : Option String) (params : List (String × String)) :
    Except PyExc ExecutionErrorRec :=
  if exec_state.is_failure then
    .ok ⟨message, exec_state, unexpected_error, params⟩
  else
    .error .valueError

/-! ## `taro/execution.py`: lifecycle ledger

`ExecutionLifecycle` stores its state changes in an
`OrderedDict[ExecutionState, datetime]`. We model that dictionary as a list of
key/value pairs in insertion order, together with the `OrderedDict`
assignment operation: assigning to an existing key overwrites its value in
place (keeping its position), assigning a fresh key appends it at the end. -/

/-- One `OrderedDict` assignment `d[k] = v` on an association list in
insertion order. -/
def odSet (entries : List (ExecutionState × Nat)) (k : ExecutionState) (v : Nat) :
    List (ExecutionState × Nat) :=
  if (entries.map Prod.fst).contains k then
    entries.map (fun e => if e.1 = k then (k, v) else e)
  else
    entries ++ [(k, v)]

/-- Source `ExecutionLifecycle`: the `_state_changes` ordered dictionary. -/
structure ExecutionLifecycle where
  entries : List (ExecutionState × Nat)
  deriving DecidableEq, Repr

namespace ExecutionLifecycle

/-- The dictionary keys in insertion order. -/
def keys (l : ExecutionLifecycle) : List ExecutionState :=
  l.entries.map Prod.fst

/-- Source `state()`: `next(reversed(keys), NONE)` — the last key, or `NONE` when
the ledger is empty. -/
def state (l : ExecutionLifecycle) : ExecutionState :=
  (l.entries.getLast?.map Prod.fst).getD .NONE

/-- Source `states()`. -/
def states (l : ExecutionLifecycle) : List ExecutionState :=
  l.keys

/-- Source `changed(state)`: the dictionary lookup (`None` stands for the `KeyError`
case, which the code never hits on the paths embedded here). -/
def changed (l : ExecutionLifecycle) (s : ExecutionState) : Option Nat :=
  l.entries.lookup s

/-- Source `last_changed()`: `next(reversed(values), None)`. -/
def last_changed (l : ExecutionLifecycle) : Option Nat :=
  l.entries.getLast?.map Prod.snd

/-- Source `execution_started()`: timestamp of the first entry whose state is in the
EXECUTING group. -/
def execution_started (l : ExecutionLifecycle) : Option Nat :=
  (l.entries.find? (fun e => e.1.is_executing)).map Prod.snd

/-- Source `execution_finished()`: the timestamp of the current state when that state
is terminal, else `None`. -/
def execution_finished (l : ExecutionLifecycle) : Option Nat :=
  if l.state.is_terminal then l.changed l.state else none

/-- Source `execution_time()`: `finished - started`, `None` when either endpoint is
missing (the source returns early on a missing value). -/
def execution_time (l : ExecutionLifecycle) : Option Int :=
  match l.execution_finished with
  | none => none
  | some finished =>
    match l.execution_started with
    | none => none
    | some started => some ((finished : Int) - started)

/-- Source `ExecutionLifecycleManagement.set_state(new_state)`: a no-op returning
`False` when `new_state` is `NONE` or equals the current state, otherwise the
`OrderedDict` assignment `_state_changes[new_state] = now` and `True`.
(The guard `not new_state` in the source only fires for a Python `None`
argument; enum members are always truthy.)  The wall-clock read
`datetime.datetime.now(timezone.utc)` is passed in explicitly as `now`. -/
def set_state (l : ExecutionLifecycle) (new_state : ExecutionState) (now : Nat) :
    Bool × ExecutionLifecycle :=
  if new_state = .NONE ∨ l.state = new_state then
    (false, l)
  else
    (true, ⟨odSet l.entries new_state now⟩)

/-- A ledger reachable through `set_state` has pairwise distinct keys (it is a
dictionary). -/
def WF (l : ExecutionLifecycle) : Prop :=
  l.keys.Nodup

instance (l : ExecutionLifecycle) : Decidable l.WF := by
  unfold WF; infer_instance

end ExecutionLifecycle

/-! ## `taro/jobs/track.py`: `Progress`

The `completed` and `total` fields are untyped Python values. We embed the
value universe the properties range over: `None`, integers (with Python's
`bool` counted as numeric, as `isinstance(True, int)` holds), booleans and
strings. Python float division of integers is modelled exactly as rational
division. -/

/-- A Python value stored in a `Progress` field. -/
inductive PyVal where
  | vNone
  | vInt (n : Int)
  | vBool (b : Bool)
  | vStr (s : String)
  deriving DecidableEq, Repr

namespace PyVal

/-- Python truthiness of the embedded values. -/
def truthy : PyVal → Bool
  | vNone => false
  | vInt n => n != 0
  | vBool b => b
  | vStr s => s ≠ ""

/-- Source `isinstance(v, (int, float))` over the embedded values (`bool` is a
subclass of `int`). -/
def isNumeric : PyVal → Bool
  | vInt _ => true
  | vBool _ => true
  | _ => false

/-- The numeric value of a numeric `PyVal` (`True == 1`, `False == 0`). -/
def numVal : PyVal → Int
  | vInt n => n
  | vBool b => if b then 1 else 0
  | _ => 0

/-- Python `==` over the embedded values: numbers compare by value across
`int`/`bool`, other comparisons are by kind and payload. -/
def pyEq (a b : PyVal) : Bool :=
  if a.isNumeric && b.isNumeric then a.numVal == b.numVal
  else match a, b with
    | vNone, vNone => true
    | vStr s, vStr t => s == t
    | _, _ => false

end PyVal

/-- Source `Progress.pct_done`: `completed / total` when both are numeric (raising
`ZeroDivisionError` when `total` is a numeric zero, as the division is
unguarded), `None` otherwise. -/
def pct_done (completed total : PyVal) : Except PyExc (Option ℚ) :=
  if completed.isNumeric && total.isNumeric then
    if total.numVal = 0 then .error .zeroDivisionError
    else .ok (some ((completed.numVal : ℚ) / (total.numVal : ℚ)))
  else
    .ok none

/-- Source `Progress.is_finished`: the Python expression
`completed and total and (completed == total)`, which evaluates to the first
falsy operand, or to the boolean equality when both are truthy. -/
def is_finished (completed total : PyVal) : PyVal :=
  if !completed.truthy then completed
  else if !total.truthy then total
  else .vBool (completed.pyEq total)

/-! ### Timestamps and their ISO serialization

`Progress.to_dict` serializes `last_updated_at` with `format_dt_iso` and
`ProgressInfo.from_dict` parses it back with `parse_datetime`; both live in
`taro/util.py`, which is not part of the sources here.

Modelled from the spec: `taro.util.format_dt_iso` / `taro.util.parse_datetime`
are missing from the sources; per the spec they (de)serialize a date-time
through "the ISO date-time format" with round-trip fidelity "within
serialization precision". We model a date-time as its calendar fields down to
microseconds and the ISO form as the fixed-width rendering
`YYYY-MM-DDTHH:MM:SS.ffffff` (a byte list), parsed back field by field. -/

/-- A date-time value at the precision the ISO serialization carries. -/
structure DT where
  year : Nat
  month : Nat
  day : Nat
  hour : Nat
  minute : Nat
  second : Nat
  micro : Nat
  deriving DecidableEq, Repr

/-- Every field fits the width of its ISO text slot. -/
def DT.inBounds (d : DT) : Prop :=
  d.year < 10000 ∧ d.month < 100 ∧ d.day < 100 ∧ d.hour < 100 ∧
    d.minute < 100 ∧ d.second < 100 ∧ d.micro < 1000000

instance (d : DT) : Decidable d.inBounds := by
  unfold DT.inBounds; infer_instance

/-- Ten to the n-th power, kept as a definition the digit lemmas unfold. -/
def pow10 : Nat → Nat
  | 0 => 1
  | n + 1 => 10 * pow10 n

/-- Render `k` as exactly `n` decimal digit bytes, most significant first
(zero padded). -/
def padDigits : Nat → Nat → List Nat
  | 0, _ => []
  | n + 1, k => (48 + k / pow10 n % 10) :: padDigits n (k % pow10 n)

/-- Read exactly `n` decimal digit bytes, left to right, into `acc`. -/
def readDigits : Nat → Nat → List Nat → Option (Nat × List Nat)
  | 0, acc, s => some (acc, s)
  | n + 1, acc, s =>
    match s with
    | [] => none
    | c :: rest =>
      if 48 ≤ c ∧ c ≤ 57 then readDigits n (acc * 10 + (c - 48)) rest
      else none

/-- Expect one literal byte. -/
def expectByte (b : Nat) : List Nat → Option (List Nat)
  | [] => none
  | c :: rest => if c = b then some rest else none

/-- Modelled from the spec: the ISO rendering of a date-time produced by
`format_dt_iso` on a present value. -/
def formatDT (d : DT) : List Nat :=
  padDigits 4 d.year ++ (45 :: (padDigits 2 d.month ++ (45 :: (padDigits 2 d.day ++
    (84 :: (padDigits 2 d.hour ++ (58 :: (padDigits 2 d.minute ++
    (58 :: (padDigits 2 d.second ++ (46 :: padDigits 6 d.micro)))))))))))

/-- Modelled from the spec: parsing an ISO date-time rendering back into its
fields, as `parse_datetime` does on a present value. -/
def parseDT (s : List Nat) : Option DT := do
  let (year, s) ← readDigits 4 0 s
  let s ← expectByte 45 s
  let (month, s) ← readDigits 2 0 s
  let s ← expectByte 45 s
  let (day, s) ← readDigits 2 0 s
  let s ← expectByte 84 s
  let (hour, s) ← readDigits 2 0 s
  let s ← expectByte 58 s
  let (minute, s) ← readDigits 2 0 s
  let s ← expectByte 58 s
  let (second, s) ← readDigits 2 0 s
  let s ← expectByte 46 s
  let (micro, s) ← readDigits 6 0 s
  match s with
  | [] => some ⟨year, month, day, hour, minute, second, micro⟩
  | _ => none

/-- Source `format_dt_iso`: `None` passes through, a date-time is rendered. -/
def format_dt_iso : Option DT → Option (List Nat)
  | none => none
  | some d => some (formatDT d)

/-- Source `parse_datetime`: a missing / empty value yields `None`, text is parsed. -/
def parse_datetime : Option (List Nat) → Option DT
  | none => none
  | some s => parseDT s

/-- Source `ProgressInfo`: the frozen dataclass fields. -/
structure ProgressInfo where
  completed : PyVal
  total : PyVal
  unit : String
  last_updated_at : Option DT
  deriving DecidableEq, Repr

/-- The dictionary produced by `Progress.to_dict` (one field per key). -/
structure ProgressDict where
  completed : PyVal
  total : PyVal
  unit : String
  last_updated_at : Option (List Nat)
  pct_done : Option ℚ
  is_finished : PyVal
  deriving DecidableEq, Repr

/-- Source `Progress.to_dict`: builds the dictionary; note that it evaluates the
`pct_done` property, so it raises whenever that raises. -/
def ProgressInfo.to_dict (p : ProgressInfo) : Except PyExc ProgressDict :=
  match pct_done p.completed p.total with
  | .error e => .error e
  | .ok pd =>
    .ok ⟨p.completed, p.total, p.unit, format_dt_iso p.last_updated_at, pd,
      is_finished p.completed p.total⟩

/-- Source `ProgressInfo.from_dict`. -/
def ProgressInfo.from_dict (d : ProgressDict) : ProgressInfo :=
  ⟨d.completed, d.total, d.unit, parse_datetime d.last_updated_at⟩

/-! ## `taro/process.py`: `ProcessExecution._notify_output_observers`

The dispatch loop iterates over the registered observers; for each one the
whole body — the `isinstance` shape dispatch and the call itself — sits inside
`try: ... except BaseException: log.exception(...)`. An observer is embedded
by its shape and by whether its call raises on the given line. The dispatch
result is the list of emitted events (calls and log records) together with the
exception escaping the whole loop, so that "nothing propagates" is a statement
about the code, not about the model's type. -/

/-- How a registered output observer matches the dispatch branches. -/
inductive ObsShape where
  | interface
  | callableObj
  | unsupported
  deriving DecidableEq, Repr

/-- An output observer: its shape, and whether its call raises on the line
being dispatched. -/
structure Observer where
  shape : ObsShape
  raises : Bool
  deriving DecidableEq, Repr

/-- Observable events of one dispatch: the observer at an index received the
line, the `except` clause logged its exception, or the unsupported-observer
warning was logged. -/
inductive NotifyEvent where
  | delivered (i : Nat) (line : String)
  | loggedException (i : Nat)
  | warnedUnsupported (i : Nat)
  deriving DecidableEq, Repr

/-- The `try` body for one observer: the events it emits, and the exception
it leaves pending (before the `except` clause runs). A raising call still
happens — the line was delivered — before the exception surfaces. -/
def notifyBody (i : Nat) (o : Observer) (line : String) :
    List NotifyEvent × Option PyExc :=
  match o.shape with
  | .interface => ([.delivered i line], if o.raises then some .valueError else none)
  | .callableObj => ([.delivered i line], if o.raises then some .valueError else none)
  | .unsupported => ([.warnedUnsupported i], none)

/-- The `for observer in self._output_observers` loop from index `i` on: each
iteration runs the body and the `except BaseException` clause turns a pending
exception into a logged event, after which iteration continues. The second
component is the exception escaping the loop. -/
def notifyFrom (i : Nat) (obs : List Observer) (line : String) :
    List NotifyEvent × Option PyExc :=
  match obs with
  | [] => ([], none)
  | o :: rest =>
    let body := notifyBody i o line
    let handled := body.1 ++ (match body.2 with
      | some _ => [.loggedException i]
      | none => [])
    let tail := notifyFrom (i + 1) rest line
    (handled ++ tail.1, tail.2)

/-- Source `ProcessExecution._notify_output_observers(output)`. -/
def notify_output_observers (obs : List Observer) (line : String) :
    List NotifyEvent × Option PyExc :=
  notifyFrom 0 obs line

/-! ## `taro/socket.py`: `SocketServer._receive_full_datagram`

Datagrams are byte lists; the local variable `payload_length` starts as the
integer `0` and is reassigned to the *bytes* captured by the regex group
`(\d+)` (the source performs no `int()` conversion), so its runtime type is
embedded as a sum. The loop condition `len(payload) < payload_length` is a
Python 3 comparison between an `int` and that value: well defined against an
`int`, a `TypeError` against `bytes`. Receiving is modelled on a finite list
of incoming `(datagram, address)` pairs; running out of input stands for a
blocking `recvfrom` and is flagged with a distinguished error. -/

/-- The runtime value of the `payload_length` variable. -/
inductive LenVal where
  | int (n : Nat)
  | bytes (b : List Nat)
  deriving DecidableEq, Repr

/-- Source `re.match(b'^(\\d+)(.*)', datagram)`: succeeds when the datagram starts
with a digit; group 1 is the maximal leading digit run, group 2 the following
bytes up to (not including) the first newline, since `.` does not match
`\n`. -/
def matchPrefixed (d : List Nat) : Option (List Nat × List Nat) :=
  let isDigitByte : Nat → Bool := fun c => 48 ≤ c && c ≤ 57
  let ds := d.takeWhile isDigitByte
  if ds.isEmpty then none
  else some (ds, (d.dropWhile isDigitByte).takeWhile (fun c => c ≠ 10))

/-- The `while` condition `not payload or len(payload) < payload_length`. -/
def recvLoopCond (payload : List Nat) (payload_length : LenVal) :
    Except PyExc Bool :=
  if payload.isEmpty then .ok true
  else match payload_length with
    | .int n => .ok (payload.length < n)
    | .bytes _ => .error .typeError

/-- The receive loop of `_receive_full_datagram` over the remaining incoming
datagrams. Returns `none` for the `return None, None` branch (empty datagram
received) and the reassembled `(payload, client_address)` otherwise. -/
def receiveLoop (stream : List (List Nat × Nat)) (payload_length : LenVal)
    (payload : List Nat) (client_address : Option Nat) :
    Except PyExc (Option (List Nat × Option Nat)) :=
  match recvLoopCond payload payload_length with
  | .error e => .error e
  | .ok false => .ok (some (payload, client_address))
  | .ok true =>
    match stream with
    | [] => .error .wouldBlock
    | (datagram, addr) :: rest =>
      if datagram.isEmpty then .ok none
      else match matchPrefixed datagram with
        | some (lenBytes, rest2) =>
          receiveLoop rest (.bytes lenBytes) rest2 (some addr)
        | none =>
          receiveLoop rest payload_length (payload ++ datagram) (some addr)

/-- Source `SocketServer._receive_full_datagram`, entered with `payload_length = 0`
and `payload = b''`. -/
def receive_full_datagram (stream : List (List Nat × Nat)) :
    Except PyExc (Option (List Nat × Option Nat)) :=
  receiveLoop stream (.int 0) [] none

/-! ## `taro/socket.py`: `SocketClient`

`communicate` drives the `servers()` generator: for each discovered socket
file (skipping files already recorded dead, and files excluded by a non-empty
`include` allow-list) it sends the request; a successful bidirectional
exchange contributes one `InstanceResponse`, a `ConnectionRefusedError` during
the exchange appends the file to `dead_sockets` and moves on to the next file
with the same request. The generator/`send`/`next` choreography is embedded
denotationally as a fold over the discovered files; the embedding also records
every file a `sendto` was attempted on, so "skipped without any send attempt"
is expressible. -/

/-- A discovered server socket file: its path identity and instance id stem. -/
structure SockFile where
  path : Nat
  stem : String
  deriving DecidableEq, Repr

/-- How the process behind a socket file behaves for one exchange. -/
inductive ServerBehavior where
  | responds (resp : String)
  | refused
  deriving DecidableEq, Repr

/-- Source `InstanceResponse` (named tuple). -/
structure InstanceResponse where
  instance_id : String
  response : String
  deriving DecidableEq, Repr

/-- The client state the exchange mutates and the trace it leaves:
collected responses, the `dead_sockets` list, and the files sent to. -/
structure CommResult where
  responses : List InstanceResponse
  dead_sockets : List SockFile
  sent : List SockFile
  deriving DecidableEq, Repr

/-- The generator's `continue` guard for one discovered file:
`(api_file in self.dead_sockets) or (include and instance_id not in include)`
(a non-empty allow-list excludes stems outside it). -/
def skipsFile (dead : List SockFile) (includes : List String)
    (f : SockFile) : Bool :=
  dead.contains f || (!includes.isEmpty && !includes.contains f.stem)

/-- One `communicate(req)` call of a bidirectional client: the fold over the
discovered socket files, threading `dead_sockets`. -/
def communicate (behav : SockFile → ServerBehavior) (files : List SockFile)
    (dead : List SockFile) (includes : List String) : CommResult :=
  match files with
  | [] => ⟨[], dead, []⟩
  | f :: rest =>
    if skipsFile dead includes f then
      communicate behav rest dead includes
    else
      match behav f with
      | .responds r =>
        let tail := communicate behav rest dead includes
        ⟨⟨f.stem, r⟩ :: tail.responses, tail.dead_sockets, f :: tail.sent⟩
      | .refused =>
        let tail := communicate behav rest (dead ++ [f]) includes
        ⟨tail.responses, tail.dead_sockets, f :: tail.sent⟩

/-! ## Helper lemmas about the ordered-dictionary model -/

/-- Looking up the last key of an association list with pairwise distinct keys
returns the last value. -/
lemma lookup_getLast_of_nodup :
    ∀ (es : List (ExecutionState × Nat)) (e : ExecutionState × Nat),
      es.getLast? = some e → (es.map Prod.fst).Nodup → es.lookup e.1 = some e.2
  | [], e => by intro h; simp at h
  | [(k, v)], e => by
    intro h _
    simp only [List.getLast?_singleton, Option.some.injEq] at h
    subst h
    simp
  | (k, v) :: b :: es, e => by
    intro h hnd
    rw [List.getLast?_cons_cons] at h
    have hmem : e ∈ b :: es := List.mem_of_getLast?_eq_some h
    have hkey : e.1 ∈ (b :: es).map Prod.fst := List.mem_map_of_mem Prod.fst hmem
    have hane : e.1 ≠ k := by
      intro hEq
      exact (List.nodup_cons.mp hnd).1 (hEq ▸ hkey)
    simp only [List.lookup_cons, beq_false_of_ne hane]
    exact lookup_getLast_of_nodup (b :: es) e h (List.nodup_cons.mp hnd).2

/-- A present key stays present and maps to the new value after the in-place
`OrderedDict` overwrite. -/
lemma lookup_overwrite :
    ∀ (es : List (ExecutionState × Nat)) (s : ExecutionState) (v : Nat),
      (es.map Prod.fst).contains s = true →
      (es.map (fun e => if e.1 = s then (s, v) else e)).lookup s = some v
  | [], s, v => by simp
  | (k, w) :: es, s, v => by
    intro h
    by_cases hEq : k = s
    · simp [hEq]
    · have hrest : (es.map Prod.fst).contains s = true := by
        simp only [List.map_cons, List.contains_cons] at h
        rcases Bool.or_eq_true_iff.mp h with h1 | h1
        · exact absurd (beq_iff_eq.mp h1).symm hEq
        · exact h1
      have hbeq : (s == k) = false := beq_false_of_ne fun hs => hEq hs.symm
      have hif : (if (k, w).1 = s then (s, v) else (k, w)) = (k, w) := by
        simp [hEq]
      simp only [List.map_cons, hif, List.lookup_cons, hbeq]
      exact lookup_overwrite es s v hrest

/-- The in-place overwrite keeps the key sequence. -/
lemma keys_overwrite (es : List (ExecutionState × Nat)) (s : ExecutionState)
    (v : Nat) :
    (es.map (fun e => if e.1 = s then (s, v) else e)).map Prod.fst =
      es.map Prod.fst := by
  rw [List.map_map]
  apply List.map_congr_left
  intro e _
  by_cases hEq : e.1 = s
  · simp [hEq]
  · simp [hEq]

namespace ExecutionLifecycle

/-- Claim C1, amended: `set_state` is a no-op returning `False` when
`new_state` is `NONE` or equals the current state; otherwise it returns
`True` and assigns `now` to the ledger's entry for `new_state` with
`OrderedDict` semantics: appended as the new last entry when `new_state` is
not yet a key, while an already-present key keeps its position and only its
timestamp is updated. -/
theorem set_state_spec (l : ExecutionLifecycle) (s : ExecutionState) (now : Nat) :
    ((s = .NONE ∨ l.state = s) → l.set_state s now = (false, l)) ∧
    (s ≠ .NONE → l.state ≠ s → l.keys.contains s = false →
      l.set_state s now = (true, ⟨l.entries ++ [(s, now)]⟩)) ∧
    (s ≠ .NONE → l.state ≠ s → l.keys.contains s = true →
      (l.set_state s now).1 = true ∧
      (l.set_state s now).2.keys = l.keys ∧
      (l.set_state s now).2.changed s = some now) := by
  refine ⟨fun h => by simp [set_state, h], ?_, ?_⟩
  · intro h1 h2 h3
    rw [set_state, if_neg (by tauto), odSet, if_neg (by simp_all [keys])]
  · intro h1 h2 h3
    rw [set_state, if_neg (by tauto), odSet, if_pos (by simp_all [keys])]
    exact ⟨rfl, keys_overwrite l.entries s now, lookup_overwrite l.entries s now h3⟩

/-- Claim C1, counterexample: On a ledger `CREATED → RUNNING`, re-setting
`CREATED` (neither `NONE` nor the current state) returns `True` but does
*not* append `(CREATED, now)` as the new last entry: the existing entry is
overwritten in place. -/
theorem set_state_no_append_counterexample :
    (ExecutionState.CREATED ≠ ExecutionState.NONE) ∧
    (ExecutionLifecycle.state ⟨[(.CREATED, 1), (.RUNNING, 2)]⟩ ≠ .CREATED) ∧
    ((ExecutionLifecycle.set_state ⟨[(.CREATED, 1), (.RUNNING, 2)]⟩
        .CREATED 3).1 = true) ∧
    ((ExecutionLifecycle.set_state ⟨[(.CREATED, 1), (.RUNNING, 2)]⟩
        .CREATED 3).2.entries.getLast? ≠ some (.CREATED, 3)) := by
  decide

/-- Witness for `set_state_spec` at concrete inputs. -/
theorem set_state_spec_witness :
    (ExecutionLifecycle.set_state ⟨[(.CREATED, 1)]⟩ .CREATED 5 =
      (false, ⟨[(.CREATED, 1)]⟩)) ∧
    (ExecutionLifecycle.set_state ⟨[(.CREATED, 1)]⟩ .RUNNING 5 =
      (true, ⟨[(.CREATED, 1), (.RUNNING, 5)]⟩)) ∧
    ((ExecutionLifecycle.set_state ⟨[(.CREATED, 1), (.RUNNING, 2)]⟩
        .CREATED 9).2.changed .CREATED = some 9) :=
  ⟨(set_state_spec ⟨[(.CREATED, 1)]⟩ .CREATED 5).1 (by decide),
   (set_state_spec ⟨[(.CREATED, 1)]⟩ .RUNNING 5).2.1 (by decide) (by decide)
     (by decide),
   ((set_state_spec ⟨[(.CREATED, 1), (.RUNNING, 2)]⟩ .CREATED 9).2.2
     (by decide) (by decide) (by decide)).2.2⟩

/-- Claim C5, counterexample: `COMPLETED` is terminal and is the current state
of the one-entry ledger, yet `set_state(RUNNING)` moves the observable current
state to `RUNNING`. -/
theorem terminal_state_mutable_counterexample :
    (ExecutionState.COMPLETED.is_terminal = true) ∧
    (ExecutionLifecycle.state ⟨[(.COMPLETED, 1)]⟩ = .COMPLETED) ∧
    ((ExecutionLifecycle.set_state ⟨[(.COMPLETED, 1)]⟩ .RUNNING 2).2.state =
      .RUNNING) ∧
    (ExecutionState.RUNNING ≠ ExecutionState.COMPLETED) := by
  decide

/-- Claim C5, amended: A terminal current state does not protect the ledger:
`set_state` applies its usual rules regardless of terminality, so whenever the
current state is terminal and `new_state` is neither `NONE`, nor the current
state, nor an already-present key, the call changes the observable current
state to `new_state`. -/
theorem terminal_state_not_protected (l : ExecutionLifecycle)
    (s : ExecutionState) (now : Nat) (hterm : l.state.is_terminal = true)
    (h1 : s ≠ .NONE) (h2 : l.state ≠ s) (h3 : l.keys.contains s = false) :
    ((l.set_state s now).2.state = s) ∧ ((l.set_state s now).2.state ≠ l.state) := by
  have hres : l.set_state s now = (true, ⟨l.entries ++ [(s, now)]⟩) := by
    rw [ExecutionLifecycle.set_state, if_neg (by tauto), odSet,
      if_neg (by simp_all [ExecutionLifecycle.keys])]
  rw [hres]
  have hstate : (⟨l.entries ++ [(s, now)]⟩ : ExecutionLifecycle).state = s := by
    simp [ExecutionLifecycle.state, List.getLast?_concat]
  exact ⟨hstate, by rw [hstate]; exact fun hEq => h2 hEq.symm⟩

/-- Witness for `terminal_state_not_protected` on the ledger
`[(COMPLETED, 1)]` and `new_state = RUNNING`. -/
theorem terminal_state_not_protected_witness :
    ((ExecutionLifecycle.set_state ⟨[(.COMPLETED, 1)]⟩ .RUNNING 2).2.state =
      .RUNNING) ∧
    ((ExecutionLifecycle.set_state ⟨[(.COMPLETED, 1)]⟩ .RUNNING 2).2.state ≠
      ExecutionLifecycle.state ⟨[(.COMPLETED, 1)]⟩) :=
  terminal_state_not_protected ⟨[(.COMPLETED, 1)]⟩ .RUNNING 2 (by decide)
    (by decide) (by decide) (by decide)

/-- Claim C6: The zero-entry ledger reports state `NONE` with every derived
timestamp absent and is never terminal; in general `execution_finished` is
present exactly when the current state is terminal — and is then the last
entry's timestamp, i.e. the timestamp of the current state — and
`execution_time` is finished minus started, absent when either endpoint is
missing. -/
theorem derived_queries_spec (l : ExecutionLifecycle) (hwf : l.WF) :
    (ExecutionLifecycle.state ⟨[]⟩ = .NONE) ∧
    (ExecutionLifecycle.execution_started ⟨[]⟩ = none) ∧
    (ExecutionLifecycle.execution_finished ⟨[]⟩ = none) ∧
    (ExecutionLifecycle.execution_time ⟨[]⟩ = none) ∧
    ((ExecutionLifecycle.state ⟨[]⟩).is_terminal = false) ∧
    (l.execution_finished.isSome = l.state.is_terminal) ∧
    (l.execution_finished =
      if l.state.is_terminal then l.last_changed else none) ∧
    (l.execution_time = l.execution_finished.bind fun f =>
      l.execution_started.map fun st => (f : Int) - st) := by
  have key : l.execution_finished =
      if l.state.is_terminal then l.last_changed else none := by
    by_cases ht : l.state.is_terminal = true
    · rw [ExecutionLifecycle.execution_finished, if_pos ht, if_pos ht]
      cases hLast : l.entries.getLast? with
      | none =>
        have hNone : l.state = .NONE := by
          simp [ExecutionLifecycle.state, hLast]
        rw [hNone] at ht
        exact absurd ht (by decide)
      | some e =>
        have hs : l.state = e.1 := by simp [ExecutionLifecycle.state, hLast]
        rw [ExecutionLifecycle.changed, hs,
          lookup_getLast_of_nodup l.entries e hLast hwf]
        simp [ExecutionLifecycle.last_changed, hLast]
    · rw [ExecutionLifecycle.execution_finished, if_neg ht, if_neg ht]
  have hne : l.state.is_terminal = true → l.last_changed.isSome = true := by
    intro ht
    cases hLast : l.entries.getLast? with
    | none =>
      have hNone : l.state = .NONE := by simp [ExecutionLifecycle.state, hLast]
      rw [hNone] at ht
      exact absurd ht (by decide)
    | some e => simp [ExecutionLifecycle.last_changed, hLast]
  refine ⟨by decide, by decide, by decide, by decide, by decide, ?_, key, ?_⟩
  · rw [key]
    by_cases ht : l.state.is_terminal = true
    · rw [if_pos ht, ht, hne ht]
    · rw [if_neg ht, Bool.eq_false_iff.mpr ht]
      rfl
  · cases hf : l.execution_finished <;> cases hs : l.execution_started <;>
      simp [ExecutionLifecycle.execution_time, hf, hs]

/-- Witness for `derived_queries_spec` on the ledger
`CREATED@1 → RUNNING@5 → COMPLETED@9`: the duration evaluates to `9 - 5`. -/
theorem derived_queries_spec_witness :
    ExecutionLifecycle.execution_time
      ⟨[(.CREATED, 1), (.RUNNING, 5), (.COMPLETED, 9)]⟩ = some 4 :=
  ((derived_queries_spec ⟨[(.CREATED, 1), (.RUNNING, 5), (.COMPLETED, 9)]⟩
    (by decide)).2.2.2.2.2.2.2).trans (by decide)

/-- Claim C8: Constructing an `ExecutionError` fails fast with `ValueError`
whenever the given state is not a failure state, and otherwise succeeds
storing the message, the state, the optional wrapped unexpected error and the
free-form params. -/
theorem execution_error_init_spec (message : String)
    (exec_state : ExecutionState) (unexpected_error : Option String)
    (params : List (String × String)) :
    (exec_state.is_failure = false →
      ExecutionError.init message exec_state unexpected_error params =
        .error .valueError) ∧
    (exec_state.is_failure = true →
      ExecutionError.init message exec_state unexpected_error params =
        .ok ⟨message, exec_state, unexpected_error, params⟩) := by
  constructor
  · intro h
    simp [ExecutionError.init, h]
  · intro h
    simp [ExecutionError.init, h]

/-- Witness for `execution_error_init_spec`: `FAILED` is accepted and its
fields stored, `COMPLETED` (not a failure state) is rejected. -/
theorem execution_error_init_spec_witness :
    (ExecutionError.init "boom" .FAILED (some "cause") [("k", "v")] =
      .ok ⟨"boom", .FAILED, some "cause", [("k", "v")]⟩) ∧
    (ExecutionError.init "late" .COMPLETED none [] = .error .valueError) :=
  ⟨(execution_error_init_spec "boom" .FAILED (some "cause") [("k", "v")]).2
      (by decide),
   (execution_error_init_spec "late" .COMPLETED none []).1 (by decide)⟩

end ExecutionLifecycle

/-- Claim C7, counterexample: At `Progress(completed=0, total=0)` both fields
are numeric (hence "set" to a value and equal), but `pct_done` raises
`ZeroDivisionError` instead of evaluating to the division, and `is_finished`
evaluates to the falsy `0`, not `True`. -/
theorem progress_spec_counterexample :
    (PyVal.isNumeric (.vInt 0) = true) ∧
    ((PyVal.vInt 0) ≠ PyVal.vNone) ∧
    (PyVal.pyEq (.vInt 0) (.vInt 0) = true) ∧
    (pct_done (.vInt 0) (.vInt 0) = .error .zeroDivisionError) ∧
    (is_finished (.vInt 0) (.vInt 0) = .vInt 0) ∧
    (PyVal.truthy (is_finished (.vInt 0) (.vInt 0)) = false) := by
  decide

/-- Claim C7, amended: `pct_done` is `completed / total` when both fields are
numeric and `total` is nonzero, raises `ZeroDivisionError` when both are
numeric and `total` is zero, and is `None` when either field is non-numeric;
`is_finished` is truthy iff `completed` and `total` are both truthy and equal
(a `None` or zero value counts as unset). The spec's concrete examples hold:
`Progress(5, 10).pct_done == 0.5`, `Progress(10, 10).is_finished` is `True`
and `Progress(None, 10).pct_done is None`. -/
theorem progress_spec (completed total : PyVal) :
    (completed.isNumeric = true → total.isNumeric = true → total.numVal ≠ 0 →
      pct_done completed total =
        .ok (some ((completed.numVal : ℚ) / (total.numVal : ℚ)))) ∧
    (completed.isNumeric = true → total.isNumeric = true → total.numVal = 0 →
      pct_done completed total = .error .zeroDivisionError) ∧
    ((completed.isNumeric && total.isNumeric) = false →
      pct_done completed total = .ok none) ∧
    ((is_finished completed total).truthy =
      (completed.truthy && total.truthy && completed.pyEq total)) ∧
    (pct_done (.vInt 5) (.vInt 10) = .ok (some ((1 : ℚ) / 2))) ∧
    (is_finished (.vInt 10) (.vInt 10) = .vBool true) ∧
    (pct_done .vNone (.vInt 10) = .ok none) := by
  refine ⟨?_, ?_, ?_, ?_,
    by simp [pct_done, PyVal.isNumeric, PyVal.numVal]; norm_num,
    by decide, by decide⟩
  · intro hc ht hz
    simp [pct_done, hc, ht, hz]
  · intro hc ht hz
    simp [pct_done, hc, ht, hz]
  · intro h
    simp only [pct_done, h, Bool.false_eq_true, if_false]
  · cases hc : completed.truthy with
    | false =>
      unfold is_finished
      rw [hc]
      simpa using hc
    | true =>
      cases ht : total.truthy with
      | false =>
        unfold is_finished
        rw [hc, ht]
        simpa using ht
      | true =>
        unfold is_finished
        rw [hc, ht]
        simp [PyVal.truthy]

/-- Witness for `progress_spec`: the three branch hypotheses discharged at
concrete values. -/
theorem progress_spec_witness :
    (pct_done (.vInt 5) (.vInt 10) = .ok (some ((5 : ℚ) / 10))) ∧
    (pct_done (.vInt 3) (.vInt 0) = .error .zeroDivisionError) ∧
    (pct_done (.vStr "x") (.vInt 10) = .ok none) :=
  ⟨(progress_spec (.vInt 5) (.vInt 10)).1 (by decide) (by decide) (by decide),
   ((progress_spec (.vInt 3) (.vInt 0)).2.1 (by decide) (by decide) (by decide)),
   ((progress_spec (.vStr "x") (.vInt 10)).2.2.1 (by decide))⟩

/-- Claim C10: Whenever `completed` is numeric and `total` is a numeric zero,
`pct_done` performs the division unguarded and raises `ZeroDivisionError`. -/
theorem pct_done_zero_division (completed total : PyVal)
    (hc : completed.isNumeric = true) (ht : total.isNumeric = true)
    (hz : total.numVal = 0) :
    pct_done completed total = .error .zeroDivisionError := by
  simp [pct_done, hc, ht, hz]

/-- Witness for `pct_done_zero_division` at `Progress(completed=5, total=0)`. -/
theorem pct_done_zero_division_witness :
    pct_done (.vInt 5) (.vInt 0) = .error .zeroDivisionError :=
  pct_done_zero_division (.vInt 5) (.vInt 0) (by decide) (by decide) (by decide)

/-! ## The ISO rendering round-trips -/

lemma pow10_pos (n : Nat) : 0 < pow10 n := by
  induction n with
  | zero => simp [pow10]
  | succ n ih => simpa [pow10] using Nat.succ_le_of_lt ih

/-- Reading back exactly the digits written by `padDigits` recovers the
value. -/
lemma readDigits_padDigits :
    ∀ (n k acc : Nat) (rest : List Nat), k < pow10 n →
      readDigits n acc (padDigits n k ++ rest) = some (acc * pow10 n + k, rest)
  | 0, k, acc, rest => by
    intro h
    have hk : k = 0 := Nat.lt_one_iff.mp (by simpa [pow10] using h)
    subst hk
    simp [padDigits, readDigits, pow10]
  | n + 1, k, acc, rest => by
    intro h
    have h10 : pow10 (n + 1) = 10 * pow10 n := rfl
    have hx : k < 10 * pow10 n := h10 ▸ h
    have hd : k / pow10 n < 10 := Nat.div_lt_of_lt_mul (by
      rw [Nat.mul_comm]
      exact hx)
    have hdm : k / pow10 n % 10 = k / pow10 n := Nat.mod_eq_of_lt hd
    have hdig : 48 ≤ 48 + k / pow10 n % 10 ∧ 48 + k / pow10 n % 10 ≤ 57 := by
      omega
    rw [padDigits, List.cons_append, readDigits, if_pos hdig]
    rw [Nat.add_sub_cancel_left]
    rw [readDigits_padDigits n (k % pow10 n) _ rest
      (Nat.mod_lt _ (pow10_pos n))]
    congr 2
    rw [hdm]
    have hsplit : pow10 n * (k / pow10 n) + k % pow10 n = k :=
      Nat.div_add_mod k (pow10 n)
    calc (acc * 10 + k / pow10 n) * pow10 n + k % pow10 n
        = acc * (10 * pow10 n) + (pow10 n * (k / pow10 n) + k % pow10 n) := by
          ring
      _ = acc * pow10 (n + 1) + k := by rw [hsplit]; rfl

lemma expectByte_cons (b : Nat) (rest : List Nat) :
    expectByte b (b :: rest) = some rest := by
  simp [expectByte]

set_option maxHeartbeats 1600000 in
/-- Parsing the fixed-width ISO rendering of an in-bounds date-time recovers
all its fields exactly. -/
theorem parseDT_formatDT (d : DT) (h : d.inBounds) :
    parseDT (formatDT d) = some d := by
  obtain ⟨h1, h2, h3, h4, h5, h6, h7⟩ := h
  have p4 : pow10 4 = 10000 := by decide
  have p2 : pow10 2 = 100 := by decide
  have p6 : pow10 6 = 1000000 := by decide
  have hy : d.year < pow10 4 := by rw [p4]; exact h1
  have hmo : d.month < pow10 2 := by rw [p2]; exact h2
  have hd : d.day < pow10 2 := by rw [p2]; exact h3
  have hh : d.hour < pow10 2 := by rw [p2]; exact h4
  have hmi : d.minute < pow10 2 := by rw [p2]; exact h5
  have hs : d.second < pow10 2 := by rw [p2]; exact h6
  have hmc : d.micro < pow10 6 := by rw [p6]; exact h7
  rw [parseDT, formatDT]
  rw [readDigits_padDigits 4 d.year 0 _ hy]
  simp only [Option.bind_eq_bind, Option.some_bind, Nat.zero_mul, Nat.zero_add]
  rw [expectByte_cons]
  simp only [Option.some_bind]
  rw [readDigits_padDigits 2 d.month 0 _ hmo]
  simp only [Option.some_bind, Nat.zero_mul, Nat.zero_add]
  rw [expectByte_cons]
  simp only [Option.some_bind]
  rw [readDigits_padDigits 2 d.day 0 _ hd]
  simp only [Option.some_bind, Nat.zero_mul, Nat.zero_add]
  rw [expectByte_cons]
  simp only [Option.some_bind]
  rw [readDigits_padDigits 2 d.hour 0 _ hh]
  simp only [Option.some_bind, Nat.zero_mul, Nat.zero_add]
  rw [expectByte_cons]
  simp only [Option.some_bind]
  rw [readDigits_padDigits 2 d.minute 0 _ hmi]
  simp only [Option.some_bind, Nat.zero_mul, Nat.zero_add]
  rw [expectByte_cons]
  simp only [Option.some_bind]
  rw [readDigits_padDigits 2 d.second 0 _ hs]
  simp only [Option.some_bind, Nat.zero_mul, Nat.zero_add]
  rw [expectByte_cons]
  simp only [Option.some_bind]
  rw [← List.append_nil (padDigits 6 d.micro)]
  rw [readDigits_padDigits 6 d.micro 0 [] hmc]
  simp only [Option.some_bind, Nat.zero_mul, Nat.zero_add]

/-- Claim C9, counterexample: At `ProgressInfo(completed=1, total=0)` the
serialization itself raises `ZeroDivisionError` (`to_dict` evaluates the
`pct_done` property), so no round trip takes place. -/
theorem progress_roundtrip_counterexample :
    ProgressInfo.to_dict ⟨.vInt 1, .vInt 0, "", none⟩ =
      .error .zeroDivisionError := by
  decide

/-- Claim C9, amended: For every `ProgressInfo` whose serialization succeeds
(`to_dict` does not raise) and whose timestamp fields fit the ISO field
widths, `from_dict` on the produced dictionary reproduces identical
`(completed, total, unit)` and an equal `last_updated_at`. -/
theorem progress_roundtrip (p : ProgressInfo) (d : ProgressDict)
    (hser : p.to_dict = .ok d)
    (hb : ∀ t, p.last_updated_at = some t → t.inBounds) :
    ((ProgressInfo.from_dict d).completed = p.completed) ∧
    ((ProgressInfo.from_dict d).total = p.total) ∧
    ((ProgressInfo.from_dict d).unit = p.unit) ∧
    ((ProgressInfo.from_dict d).last_updated_at = p.last_updated_at) := by
  rw [ProgressInfo.to_dict] at hser
  cases hpd : pct_done p.completed p.total with
  | error e =>
    rw [hpd] at hser
    exact absurd hser (by simp)
  | ok v =>
    rw [hpd] at hser
    simp only [Except.ok.injEq] at hser
    subst hser
    refine ⟨rfl, rfl, rfl, ?_⟩
    show parse_datetime (format_dt_iso p.last_updated_at) = p.last_updated_at
    cases hts : p.last_updated_at with
    | none => rfl
    | some t =>
      show parseDT (formatDT t) = some t
      exact parseDT_formatDT t (hb t hts)

/-- Witness for `progress_roundtrip` at a concrete `ProgressInfo` with a
timestamp: the round trip reproduces every field. -/
theorem progress_roundtrip_witness :
    ((ProgressInfo.from_dict
        ⟨.vNone, .vInt 10, "rows",
          some (formatDT ⟨2023, 5, 17, 10, 30, 5, 123456⟩),
          none, .vNone⟩).last_updated_at =
      some ⟨2023, 5, 17, 10, 30, 5, 123456⟩) ∧
    ((ProgressInfo.from_dict
        ⟨.vNone, .vInt 10, "rows",
          some (formatDT ⟨2023, 5, 17, 10, 30, 5, 123456⟩),
          none, .vNone⟩).unit = "rows") :=
  have h := progress_roundtrip
    ⟨.vNone, .vInt 10, "rows", some ⟨2023, 5, 17, 10, 30, 5, 123456⟩⟩
    ⟨.vNone, .vInt 10, "rows",
      some (formatDT ⟨2023, 5, 17, 10, 30, 5, 123456⟩),
      none, .vNone⟩
    (by decide) (by intro t ht; cases ht; decide)
  ⟨h.2.2.2, h.2.2.1⟩

/-! ## Observer dispatch never loses deliveries nor leaks exceptions -/

/-- Dispatch from an arbitrary starting index: the loop lets no exception
escape, delivers the line to every supported observer, and records a logged
exception for every raising supported observer. -/
lemma notifyFrom_spec (obs : List Observer) :
    ∀ (i0 : Nat) (line : String),
    ((notifyFrom i0 obs line).2 = none) ∧
    (∀ j (hj : j < obs.length),
      ((obs.get ⟨j, hj⟩).shape ≠ .unsupported →
        NotifyEvent.delivered (i0 + j) line ∈ (notifyFrom i0 obs line).1) ∧
      ((obs.get ⟨j, hj⟩).shape ≠ .unsupported →
        (obs.get ⟨j, hj⟩).raises = true →
        NotifyEvent.loggedException (i0 + j) ∈ (notifyFrom i0 obs line).1)) := by
  induction obs with
  | nil =>
    intro i0 line
    exact ⟨rfl, fun j hj => absurd hj (by simp)⟩
  | cons o rest ih =>
    intro i0 line
    refine ⟨by simpa [notifyFrom] using (ih (i0 + 1) line).1, ?_⟩
    intro j hj
    cases j with
    | zero =>
      constructor
      · intro hshape
        simp only [notifyFrom, List.mem_append, Nat.add_zero]
        left; left
        cases hsh : o.shape with
        | interface => simp [notifyBody, hsh]
        | callableObj => simp [notifyBody, hsh]
        | unsupported => exact absurd hsh hshape
      · intro hshape hraise
        have hr : o.raises = true := hraise
        simp only [notifyFrom, List.mem_append, Nat.add_zero]
        left; right
        cases hsh : o.shape with
        | interface => simp [notifyBody, hsh, hr]
        | callableObj => simp [notifyBody, hsh, hr]
        | unsupported => exact absurd hsh hshape
    | succ j =>
      have hj' : j < rest.length := by simpa using hj
      have ihj := (ih (i0 + 1) line).2 j hj'
      have hidx : i0 + 1 + j = i0 + (j + 1) := by omega
      constructor
      · intro hshape
        have hmem := ihj.1 hshape
        rw [hidx] at hmem
        simp only [notifyFrom, List.mem_append]
        right
        exact hmem
      · intro hshape hraise
        have hmem := ihj.2 hshape hraise
        rw [hidx] at hmem
        simp only [notifyFrom, List.mem_append]
        right
        exact hmem

/-- Claim C2: `_notify_output_observers` lets no exception escape (the escaping
exception slot of the dispatch is always empty): every supported observer —
in particular every observer registered after a raising one — receives the
line, and each raising observer's exception is logged at the dispatch site. -/
theorem observer_fault_isolation (obs : List Observer) (line : String) :
    ((notify_output_observers obs line).2 = none) ∧
    (∀ j (hj : j < obs.length),
      ((obs.get ⟨j, hj⟩).shape ≠ .unsupported →
        NotifyEvent.delivered j line ∈ (notify_output_observers obs line).1) ∧
      ((obs.get ⟨j, hj⟩).shape ≠ .unsupported →
        (obs.get ⟨j, hj⟩).raises = true →
        NotifyEvent.loggedException j ∈ (notify_output_observers obs line).1)) := by
  have h := notifyFrom_spec obs 0 line
  refine ⟨h.1, ?_⟩
  intro j hj
  have h2 := h.2 j hj
  simpa [notify_output_observers] using h2

/-- Witness for `observer_fault_isolation`: three observers with the second
raising — the first and third still receive the line, the exception is
logged, and nothing escapes. -/
theorem observer_fault_isolation_witness :
    ((notify_output_observers
      [⟨.interface, false⟩, ⟨.callableObj, true⟩, ⟨.interface, false⟩]
      "out").2 = none) ∧
    (NotifyEvent.delivered 0 "out" ∈ (notify_output_observers
      [⟨.interface, false⟩, ⟨.callableObj, true⟩, ⟨.interface, false⟩]
      "out").1) ∧
    (NotifyEvent.delivered 1 "out" ∈ (notify_output_observers
      [⟨.interface, false⟩, ⟨.callableObj, true⟩, ⟨.interface, false⟩]
      "out").1) ∧
    (NotifyEvent.delivered 2 "out" ∈ (notify_output_observers
      [⟨.interface, false⟩, ⟨.callableObj, true⟩, ⟨.interface, false⟩]
      "out").1) ∧
    (NotifyEvent.loggedException 1 ∈ (notify_output_observers
      [⟨.interface, false⟩, ⟨.callableObj, true⟩, ⟨.interface, false⟩]
      "out").1) := by
  have h := observer_fault_isolation
    [⟨.interface, false⟩, ⟨.callableObj, true⟩, ⟨.interface, false⟩] "out"
  exact ⟨h.1,
    (h.2 0 (by decide)).1 (by decide),
    (h.2 1 (by decide)).1 (by decide),
    (h.2 2 (by decide)).1 (by decide),
    (h.2 1 (by decide)).2 (by decide) (by decide)⟩

/-! ## The receive loop crashes instead of reassembling -/

/-- Claim C3, code bug: Because `payload_length` keeps the raw regex-group
bytes (no `int()` conversion), re-evaluating the loop condition compares an
`int` with `bytes` and raises `TypeError`: a complete single datagram
`b"2[]"` crashes the loop, and so does a split payload `b"4ab"` + `b"cd"` —
reassembly never completes, contradicting the declared-length accumulation
the spec describes. -/
theorem receive_full_datagram_type_error :
    (receive_full_datagram [([50, 91, 93], 7)] = .error .typeError) ∧
    (receive_full_datagram [([52, 97, 98], 7), ([99, 100], 7)] =
      .error .typeError) := by
  decide

/-! ## Scatter-gather with dead-socket memory -/

/-- Marking one file dead does not change the skip decision for any other
file. -/
lemma skipsFile_append_dead (dead : List SockFile) (includes : List String)
    (f g : SockFile) (hne : g ≠ f) :
    skipsFile (dead ++ [f]) includes g = skipsFile dead includes g := by
  simp [skipsFile, hne]

/-- The response a non-skipped file contributes to `communicate`, if any. -/
def responseOf (behav : SockFile → ServerBehavior) (dead : List SockFile)
    (includes : List String) (f : SockFile) : Option InstanceResponse :=
  if skipsFile dead includes f then none
  else match behav f with
    | .responds r => some ⟨f.stem, r⟩
    | .refused => none

/-- Claim C4: Over pairwise-distinct discovered socket files, `communicate`
collects exactly one response per answering non-skipped server (in discovery
order), appends exactly the connection-refused servers to `dead_sockets`
(they contribute no response and do not abort the remaining exchanges),
attempts a send exactly on the non-skipped files, and never attempts a send
on a file already recorded dead — so a socket marked dead in one call is
skipped without a send attempt by every later call of the same client. -/
theorem communicate_spec (behav : SockFile → ServerBehavior)
    (files : List SockFile) (dead : List SockFile) (includes : List String)
    (hnd : files.Nodup) :
    ((communicate behav files dead includes).responses =
      files.filterMap (responseOf behav dead includes)) ∧
    ((communicate behav files dead includes).dead_sockets =
      dead ++ files.filter (fun f =>
        !skipsFile dead includes f && behav f == .refused)) ∧
    ((communicate behav files dead includes).sent =
      files.filter (fun f => !skipsFile dead includes f)) ∧
    (∀ f ∈ dead, f ∉ (communicate behav files dead includes).sent) := by
  have main : ∀ (fs : List SockFile) (dd : List SockFile), fs.Nodup →
      ((communicate behav fs dd includes).responses =
        fs.filterMap (responseOf behav dd includes)) ∧
      ((communicate behav fs dd includes).dead_sockets =
        dd ++ fs.filter (fun f =>
          !skipsFile dd includes f && behav f == .refused)) ∧
      ((communicate behav fs dd includes).sent =
        fs.filter (fun f => !skipsFile dd includes f)) := by
    intro fs
    induction fs with
    | nil => intro dd _; simp [communicate]
    | cons f rest ih =>
      intro dd hnodup
      have hfr : f ∉ rest := (List.nodup_cons.mp hnodup).1
      have hrest : rest.Nodup := (List.nodup_cons.mp hnodup).2
      cases hskip : skipsFile dd includes f with
      | true =>
        have hcomm : communicate behav (f :: rest) dd includes =
            communicate behav rest dd includes := by
          rw [communicate, if_pos hskip]
        have hresp : responseOf behav dd includes f = none := by
          rw [responseOf, if_pos hskip]
        refine ⟨?_, ?_, ?_⟩
        · rw [hcomm, List.filterMap_cons_none hresp]
          exact (ih dd hrest).1
        · rw [hcomm, (ih dd hrest).2.1]
          congr 1
          rw [List.filter_cons]
          simp [hskip]
        · rw [hcomm, (ih dd hrest).2.2, List.filter_cons]
          simp [hskip]
      | false =>
        cases hbv : behav f with
        | responds r =>
          have hcomm : communicate behav (f :: rest) dd includes =
              ⟨⟨f.stem, r⟩ :: (communicate behav rest dd includes).responses,
               (communicate behav rest dd includes).dead_sockets,
               f :: (communicate behav rest dd includes).sent⟩ := by
            rw [communicate, if_neg (by simp [hskip]), hbv]
          have hresp : responseOf behav dd includes f = some ⟨f.stem, r⟩ := by
            rw [responseOf, if_neg (by simp [hskip]), hbv]
          refine ⟨?_, ?_, ?_⟩
          · rw [hcomm, List.filterMap_cons_some hresp]
            simp only [List.cons.injEq, true_and]
            exact (ih dd hrest).1
          · rw [hcomm]
            show (communicate behav rest dd includes).dead_sockets = _
            rw [(ih dd hrest).2.1]
            congr 1
            rw [List.filter_cons]
            simp [hskip, hbv]
          · rw [hcomm]
            show f :: (communicate behav rest dd includes).sent = _
            rw [(ih dd hrest).2.2, List.filter_cons]
            simp [hskip]
        | refused =>
          have hcomm : communicate behav (f :: rest) dd includes =
              ⟨(communicate behav rest (dd ++ [f]) includes).responses,
               (communicate behav rest (dd ++ [f]) includes).dead_sockets,
               f :: (communicate behav rest (dd ++ [f]) includes).sent⟩ := by
            rw [communicate, if_neg (by simp [hskip]), hbv]
          have hcongrResp : rest.filterMap (responseOf behav (dd ++ [f]) includes) =
              rest.filterMap (responseOf behav dd includes) := by
            apply List.filterMap_congr
            intro g hg
            have hne : g ≠ f := fun hEq => hfr (hEq ▸ hg)
            rw [responseOf, responseOf, skipsFile_append_dead dd includes f g hne]
          have hcongrFilter : ∀ (p : SockFile → Bool),
              rest.filter (fun g => !skipsFile (dd ++ [f]) includes g && p g) =
              rest.filter (fun g => !skipsFile dd includes g && p g) := by
            intro p
            apply List.filter_congr
            intro g hg
            have hne : g ≠ f := fun hEq => hfr (hEq ▸ hg)
            rw [skipsFile_append_dead dd includes f g hne]
          have hcongrSent : rest.filter (fun g => !skipsFile (dd ++ [f]) includes g) =
              rest.filter (fun g => !skipsFile dd includes g) := by
            apply List.filter_congr
            intro g hg
            have hne : g ≠ f := fun hEq => hfr (hEq ▸ hg)
            rw [skipsFile_append_dead dd includes f g hne]
          refine ⟨?_, ?_, ?_⟩
          · rw [hcomm]
            show (communicate behav rest (dd ++ [f]) includes).responses = _
            rw [(ih (dd ++ [f]) hrest).1, hcongrResp,
              List.filterMap_cons_none (by rw [responseOf,
                if_neg (by simp [hskip]), hbv])]
          · rw [hcomm]
            show (communicate behav rest (dd ++ [f]) includes).dead_sockets = _
            rw [(ih (dd ++ [f]) hrest).2.1, hcongrFilter (fun g => behav g == .refused),
              List.filter_cons]
            simp only [hskip, hbv, Bool.not_false, Bool.true_and, beq_self_eq_true,
              if_true, List.append_assoc, List.singleton_append]
          · rw [hcomm]
            show f :: (communicate behav rest (dd ++ [f]) includes).sent = _
            rw [(ih (dd ++ [f]) hrest).2.2, hcongrSent, List.filter_cons]
            simp [hskip]
  have m := main files dead hnd
  refine ⟨m.1, m.2.1, m.2.2, ?_⟩
  intro f hf hmem
  rw [m.2.2] at hmem
  have := (List.mem_filter.mp hmem).2
  have hcont : dead.contains f = true := List.elem_iff.mpr hf
  rw [skipsFile] at this
  simp [hcont] at this
  exact this.1 hf

/-- Witness for `communicate_spec`: three discovered sockets with the middle
one refusing — two responses come back, the refused file lands in
`dead_sockets`, and a second call with that dead list never sends to it. -/
theorem communicate_spec_witness :
    ((communicate (fun f => if f.path = 2 then .refused else .responds "ok")
        [⟨1, "a"⟩, ⟨2, "b"⟩, ⟨3, "c"⟩] [] []).responses =
      [⟨"a", "ok"⟩, ⟨"c", "ok"⟩]) ∧
    ((communicate (fun f => if f.path = 2 then .refused else .responds "ok")
        [⟨1, "a"⟩, ⟨2, "b"⟩, ⟨3, "c"⟩] [] []).dead_sockets = [⟨2, "b"⟩]) ∧
    ((communicate (fun f => if f.path = 2 then .refused else .responds "ok")
        [⟨1, "a"⟩, ⟨2, "b"⟩, ⟨3, "c"⟩] [] []).sent =
      [⟨1, "a"⟩, ⟨2, "b"⟩, ⟨3, "c"⟩]) ∧
    ((⟨2, "b"⟩ : SockFile) ∉
      (communicate (fun f => if f.path = 2 then .refused else .responds "ok")
        [⟨1, "a"⟩, ⟨2, "b"⟩, ⟨3, "c"⟩] [⟨2, "b"⟩] []).sent) := by
  have h1 := communicate_spec
    (fun f => if f.path = 2 then .refused else .responds "ok")
    [⟨1, "a"⟩, ⟨2, "b"⟩, ⟨3, "c"⟩] [] [] (by decide)
  have h2 := communicate_spec
    (fun f => if f.path = 2 then .refused else .responds "ok")
    [⟨1, "a"⟩, ⟨2, "b"⟩, ⟨3, "c"⟩] [⟨2, "b"⟩] [] (by decide)
  exact ⟨h1.1.trans (by decide), h1.2.1.trans (by decide),
    h1.2.2.1.trans (by decide), h2.2.2.2 ⟨2, "b"⟩ (by decide)⟩

end Taro
